import Mathlib

/-!
Shallow embedding of the PDFMANAGER repository: the row-level security
policies (storage/schema migration), the upload flow (PDFUploader.tsx),
the sharing action (Dashboard `handleEmailShare`), the shared-link
resolver (SharedPDF.tsx), the comment flows (PDFView.tsx / SharedPDF.tsx)
and the dashboard delete handler (Dashboard.tsx), together with theorems
settling the specification's claims about them.
-/

/-! ## Data model (migration `pdfs` / `comments` tables, lib/types.ts) -/

/-- Row of the `pdfs` table.  `shared_link_id` and `share_token` are
nullable columns (the two sharing-credential designs across revisions). -/
structure PdfMeta where
  id : String
  name : String
  file_path : String
  user_id : String
  shared_link_id : Option String
  share_token : Option String
deriving Repr, DecidableEq

/-- Row of the `comments` table.  `user_id` is nullable in the revisions
that allow guest comments. -/
structure CommentRow where
  id : String
  pdf_id : String
  user_id : Option String
  content : String
  created_at : Nat
deriving Repr, DecidableEq

/-- Row of the `profiles` table (display projection of a user). -/
structure Profile where
  id : String
  name : Option String
deriving Repr, DecidableEq

/-! ## Access policy layer (migration, part_000 lines 79-129) -/

/-- The requester of a database operation: the `anon` role, or the
`authenticated` role with `auth.uid()` equal to the given id. -/
inductive Requester where
  | anon : Requester
  | authed : String → Requester
deriving Repr, DecidableEq

/-- Per-request context: who makes the request and the value of
`current_setting('request.shared_link_id', true)` (none when unset). -/
structure ReqCtx where
  requester : Requester
  sharedLinkSetting : Option String
deriving Repr, DecidableEq

/-- `auth.uid()`: the authenticated user's id, null for `anon`. -/
def authUid : Requester → Option String
  | Requester.anon => none
  | Requester.authed u => some u

/-- SQL operation kinds governed by the row policies. -/
inductive SqlOp where
  | select : SqlOp
  | insert : SqlOp
  | update : SqlOp
  | delete : SqlOp
deriving Repr, DecidableEq

/-- Policy "Users can manage their own PDFs" (FOR ALL TO authenticated,
USING and WITH CHECK `auth.uid() = user_id`). -/
def pdfsManageOwn (ctx : ReqCtx) (row : PdfMeta) : Bool :=
  match authUid ctx.requester with
  | some u => u == row.user_id
  | none => false

/-- Policy "Anyone can view shared PDFs" (FOR SELECT TO anon, authenticated,
USING `shared_link_id = current_setting('request.shared_link_id', true)::uuid`).
A SQL comparison against null is never true, so both sides must be non-null
and equal. -/
def pdfsViewShared (ctx : ReqCtx) (row : PdfMeta) : Bool :=
  match row.shared_link_id, ctx.sharedLinkSetting with
  | some l, some s => l == s
  | _, _ => false

/-- Permissive-policy semantics on the `pdfs` table: an operation on a row
is allowed when some policy covering that operation accepts it.  Only the
FOR ALL owner policy covers insert, update and delete; select is also
covered by the shared-link policy. -/
def pdfsAllowed (ctx : ReqCtx) (row : PdfMeta) : SqlOp → Bool
  | SqlOp.select => pdfsManageOwn ctx row || pdfsViewShared ctx row
  | SqlOp.insert => pdfsManageOwn ctx row
  | SqlOp.update => pdfsManageOwn ctx row
  | SqlOp.delete => pdfsManageOwn ctx row

/-- Policy "Users can manage their own comments" (FOR ALL TO authenticated,
`auth.uid() = user_id`; never true for a null author column). -/
def commentsManageOwn (ctx : ReqCtx) (c : CommentRow) : Bool :=
  match authUid ctx.requester, c.user_id with
  | some u, some cu => u == cu
  | _, _ => false

/-- Policy "PDF owners can view all comments" (FOR SELECT TO authenticated,
EXISTS a pdf row with the comment's pdf_id owned by `auth.uid()`). -/
def commentsOwnerView (ctx : ReqCtx) (pdfs : List PdfMeta) (c : CommentRow) : Bool :=
  pdfs.any (fun p =>
    p.id == c.pdf_id &&
      (match authUid ctx.requester with
       | some u => p.user_id == u
       | none => false))

/-- Policy "Users can view comments on shared PDFs" (FOR SELECT TO anon,
authenticated, EXISTS a pdf row with the comment's pdf_id whose
shared_link_id equals the request setting). -/
def commentsSharedView (ctx : ReqCtx) (pdfs : List PdfMeta) (c : CommentRow) : Bool :=
  pdfs.any (fun p => p.id == c.pdf_id && pdfsViewShared ctx p)

/-- Permissive-policy semantics for SELECT on the `comments` table. -/
def commentsSelectAllowed (ctx : ReqCtx) (pdfs : List PdfMeta) (c : CommentRow) : Bool :=
  commentsManageOwn ctx c || commentsOwnerView ctx pdfs c ||
    commentsSharedView ctx pdfs c

/-- Sample document with a share credential, for concrete instantiations. -/
def pdfShared : PdfMeta :=
  { id := "p1", name := "report.pdf", file_path := "1700000000000-report.pdf",
    user_id := "owner1", shared_link_id := some "tok1", share_token := some "tok1" }

/-- Sample guest comment attached to `pdfShared`. -/
def commentOnShared : CommentRow :=
  { id := "c1", pdf_id := "p1", user_id := none,
    content := "hello", created_at := 5 }

/-- C1: a document with a non-null share credential can be read, together
with its comments, by an anonymous request presenting that credential, but
the same request can neither update nor delete the document: update and
delete are only allowed when the requester's identity equals the owner. -/
theorem anon_token_reads_but_cannot_write
    (pdfs : List PdfMeta) (d : PdfMeta) (t : String) (ctx : ReqCtx)
    (c : CommentRow)
    (hd : d.shared_link_id = some t)
    (hr : ctx.requester = Requester.anon)
    (hs : ctx.sharedLinkSetting = some t)
    (hc : c.pdf_id = d.id)
    (hmem : d ∈ pdfs) :
    pdfsAllowed ctx d SqlOp.select = true ∧
    pdfsAllowed ctx d SqlOp.update = false ∧
    pdfsAllowed ctx d SqlOp.delete = false ∧
    commentsSelectAllowed ctx pdfs c = true := by
  have hview : pdfsViewShared ctx d = true := by
    simp [pdfsViewShared, hd, hs]
  have hown : pdfsManageOwn ctx d = false := by
    simp [pdfsManageOwn, hr, authUid]
  refine ⟨?_, ?_, ?_, ?_⟩
  · simp [pdfsAllowed, hview]
  · simp [pdfsAllowed, hown]
  · simp [pdfsAllowed, hown]
  · have hshared : commentsSharedView ctx pdfs c = true := by
      simp only [commentsSharedView, List.any_eq_true]
      exact ⟨d, hmem, by simp [hc, hview]⟩
    simp [commentsSelectAllowed, hshared]

/-- Witness for C1 at a concrete document, comment and anonymous context. -/
theorem anon_token_reads_but_cannot_write_witness :
    pdfsAllowed ⟨Requester.anon, some "tok1"⟩ pdfShared SqlOp.select = true ∧
    pdfsAllowed ⟨Requester.anon, some "tok1"⟩ pdfShared SqlOp.update = false ∧
    pdfsAllowed ⟨Requester.anon, some "tok1"⟩ pdfShared SqlOp.delete = false ∧
    commentsSelectAllowed ⟨Requester.anon, some "tok1"⟩ [pdfShared] commentOnShared = true :=
  anon_token_reads_but_cannot_write [pdfShared] pdfShared "tok1"
    ⟨Requester.anon, some "tok1"⟩ commentOnShared rfl rfl rfl rfl
    (List.mem_singleton.mpr rfl)

/-! ## Upload flow (PDFUploader.tsx `uploadFile`) -/

/-- Scan for an occurrence of `pat` as a contiguous run of characters. -/
def hasSubList (pat : List Char) : List Char → Bool
  | [] => pat.isEmpty
  | c :: rest => pat.isPrefixOf (c :: rest) || hasSubList pat rest

/-- JavaScript `s.includes(pat)`: the pattern occurs as a substring. -/
def jsIncludes (s pat : String) : Bool :=
  hasSubList pat.data s.data

/-- The filename sanitizer `file.name.replace(/[^a-zA-Z0-9.-]/g, '_')`:
every character that is not ASCII alphanumeric, a dot or a hyphen is
replaced by an underscore. -/
def sanitizeName (s : String) : String :=
  String.mk (s.data.map (fun c =>
    if c.isAlphanum || c == '.' || c == '-' then c else '_'))

/-- Modelled from the spec's words ("sanitization replaces any character
outside `[A-Za-z0-9.-]` with `_`"), with the character classes spelled as
explicit ranges, to be compared with the source-derived `sanitizeName`. -/
def specSanitizedName (s : String) : String :=
  String.mk (s.data.map (fun c =>
    if ('A' ≤ c ∧ c ≤ 'Z') ∨ ('a' ≤ c ∧ c ≤ 'z') ∨ ('0' ≤ c ∧ c ≤ '9')
        ∨ c = '.' ∨ c = '-' then c else '_'))

theorem keepChar_eq (c : Char) :
    (if c.isAlphanum || c == '.' || c == '-' then c else '_') =
    (if ('A' ≤ c ∧ c ≤ 'Z') ∨ ('a' ≤ c ∧ c ≤ 'z') ∨ ('0' ≤ c ∧ c ≤ '9')
        ∨ c = '.' ∨ c = '-' then c else '_') := by
  have h : (c.isAlphanum || c == '.' || c == '-') = true ↔
      (('A' ≤ c ∧ c ≤ 'Z') ∨ ('a' ≤ c ∧ c ≤ 'z') ∨ ('0' ≤ c ∧ c ≤ '9')
        ∨ c = '.' ∨ c = '-') := by
    have e1 : ('A' : Char).val = 65 := by decide
    have e2 : ('Z' : Char).val = 90 := by decide
    have e3 : ('a' : Char).val = 97 := by decide
    have e4 : ('z' : Char).val = 122 := by decide
    have e5 : ('0' : Char).val = 48 := by decide
    have e6 : ('9' : Char).val = 57 := by decide
    simp only [Char.isAlphanum, Char.isAlpha, Char.isDigit, Char.isUpper,
      Char.isLower, Bool.or_eq_true, Bool.and_eq_true, decide_eq_true_eq,
      beq_iff_eq, Char.le_def, ge_iff_le, e1, e2, e3, e4, e5, e6]
    tauto
  by_cases hb : (c.isAlphanum || c == '.' || c == '-') = true
  · rw [if_pos hb, if_pos (h.mp hb)]
  · rw [if_neg hb, if_neg (fun hp => hb (h.mpr hp))]

/-- The code's sanitizer agrees with the spec's description of it. -/
theorem sanitizeName_eq_spec (s : String) :
    sanitizeName s = specSanitizedName s := by
  unfold sanitizeName specSanitizedName
  exact congrArg String.mk (List.map_congr_left (fun c _ => keepChar_eq c))

/-- A file as handed to `uploadFile`: its name and declared MIME type. -/
structure FileInput where
  name : String
  mimeType : String
deriving Repr, DecidableEq

/-- Backing state touched by the upload: the set of stored object keys in
the `pdfs` bucket and the rows of the `pdfs` metadata table (most recent
insert first, as a read immediately after the insert would see it). -/
structure AppState where
  storage : List String
  pdfsTable : List PdfMeta
deriving Repr, DecidableEq

/-- The upload flow of PDFUploader.tsx: reject a non-PDF MIME type before
touching any backing state; build the storage key from the millisecond
timestamp and the sanitized name; store the object (upsert is false, so a
key collision errors); look up the authenticated user; insert the metadata
row (`dbFails` models the insert erroring).  On a metadata failure the
already-stored object is NOT removed (the compensating remove is commented
out in the source). -/
def uploadFile (st : AppState) (file : FileInput) (timestamp : Nat)
    (authUser : Option String) (newId : String) (dbFails : Bool) :
    AppState × Except String PdfMeta :=
  if !(jsIncludes file.mimeType "pdf") then
    (st, Except.error "Please upload a PDF file")
  else
    let filename := toString timestamp ++ "-" ++ sanitizeName file.name
    if st.storage.contains filename then
      (st, Except.error "Failed to upload file to storage")
    else
      let st1 : AppState := { storage := filename :: st.storage, pdfsTable := st.pdfsTable }
      match authUser with
      | none => (st1, Except.error "User not authenticated")
      | some userId =>
        if dbFails then
          (st1, Except.error "Failed to create database record")
        else
          let row : PdfMeta :=
            { id := newId, name := file.name, file_path := filename,
              user_id := userId, shared_link_id := none, share_token := none }
          ({ st1 with pdfsTable := row :: st1.pdfsTable }, Except.ok row)

/-- C2: a successful upload of file `n` at timestamp `t` by user `U`
returns and stores a metadata row whose name is `n`, whose storage key is
`t`, a hyphen, then `n` sanitized per the spec's character class, and whose
owner is `U`; an immediate read of the table's newest row recovers it. -/
theorem upload_roundtrip (st : AppState) (file : FileInput) (t : Nat)
    (u i : String)
    (hm : jsIncludes file.mimeType "pdf" = true)
    (hcol : (toString t ++ "-" ++ sanitizeName file.name) ∉ st.storage) :
    (uploadFile st file t (some u) i false).2 =
      Except.ok ⟨i, file.name, toString t ++ "-" ++ specSanitizedName file.name,
                 u, none, none⟩ ∧
    (uploadFile st file t (some u) i false).1.pdfsTable.head? =
      some ⟨i, file.name, toString t ++ "-" ++ specSanitizedName file.name,
            u, none, none⟩ := by
  rw [← sanitizeName_eq_spec]
  simp [uploadFile, hm, hcol]

/-- Witness for C2: uploading `report λ.pdf` at timestamp 1700000000000. -/
theorem upload_roundtrip_witness :
    (uploadFile ⟨[], []⟩ ⟨"report λ.pdf", "application/pdf"⟩ 1700000000000
        (some "owner1") "p9" false).2 =
      Except.ok ⟨"p9", "report λ.pdf", "1700000000000-report__.pdf",
                 "owner1", none, none⟩ ∧
    (uploadFile ⟨[], []⟩ ⟨"report λ.pdf", "application/pdf"⟩ 1700000000000
        (some "owner1") "p9" false).1.pdfsTable.head? =
      some ⟨"p9", "report λ.pdf", "1700000000000-report__.pdf",
            "owner1", none, none⟩ := by
  have h := upload_roundtrip ⟨[], []⟩ ⟨"report λ.pdf", "application/pdf"⟩
    1700000000000 "owner1" "p9" (by decide) (by decide)
  have hs : specSanitizedName "report λ.pdf" = "report__.pdf" := by decide
  rw [hs] at h
  exact h

/-! ## Share action (Dashboard `handleEmailShare`, part_005 lines 91-126) -/

/-- JavaScript truthiness of a nullable string: `!x` is true for null and
for the empty string. -/
def jsFalsy : Option String → Bool
  | none => true
  | some s => s == ""

/-- The share action: reuse the document's stored share token when it is
truthy, otherwise generate a fresh token (`uuidv4()`, modelled as the
`freshToken` argument) and persist it on the row; either way build the link
`<origin>/shared/<token>`.  Returns the (possibly updated) row and the
link. -/
def handleEmailShare (pdf : PdfMeta) (freshToken : String) (origin : String) :
    PdfMeta × String :=
  if jsFalsy pdf.share_token then
    ({ pdf with share_token := some freshToken },
     origin ++ "/shared/" ++ freshToken)
  else
    (pdf, origin ++ "/shared/" ++ (pdf.share_token.getD ""))

/-- Sample document whose share token is the empty string. -/
def pdfEmptyToken : PdfMeta :=
  { id := "p2", name := "a.pdf", file_path := "1-a.pdf",
    user_id := "owner1", shared_link_id := none, share_token := some "" }

/-- C3 counterexample: the claim "if d's share token is null a fresh token
is generated, otherwise the stored token is left unchanged" fails on a
document whose stored token is the empty string (non-null): the code's
truthiness check regenerates it. -/
theorem share_nonnull_token_changed :
    pdfEmptyToken.share_token = some "" ∧
    (handleEmailShare pdfEmptyToken "fresh1" "https://app").1.share_token =
      some "fresh1" ∧
    (handleEmailShare pdfEmptyToken "fresh1" "https://app").1.share_token ≠
      pdfEmptyToken.share_token := by
  refine ⟨rfl, rfl, ?_⟩
  decide

/-- C3 (amended): the share action assigns lazily and reuses: a null or
empty stored token is replaced by the freshly generated one, a non-empty
stored token is left unchanged; in both cases the link is
`<origin>/shared/<token>` for the resulting token, and running the action a
second time (with any second fresh value) changes nothing and produces the
same link, provided generated tokens are non-empty. -/
theorem handleEmailShare_lazy_reuse (pdf : PdfMeta) (f f2 origin t : String)
    (hf : f ≠ "") :
    (pdf.share_token = none →
      handleEmailShare pdf f origin =
        ({ pdf with share_token := some f }, origin ++ "/shared/" ++ f)) ∧
    (pdf.share_token = some t → t ≠ "" →
      handleEmailShare pdf f origin = (pdf, origin ++ "/shared/" ++ t)) ∧
    handleEmailShare (handleEmailShare pdf f origin).1 f2 origin =
      handleEmailShare pdf f origin := by
  refine ⟨?_, ?_, ?_⟩
  · intro h
    simp [handleEmailShare, jsFalsy, h]
  · intro h ht
    simp [handleEmailShare, jsFalsy, h, ht]
  · rcases hp : pdf.share_token with _ | t2
    · simp [handleEmailShare, jsFalsy, hp, hf]
    · by_cases ht2 : t2 = ""
      · subst ht2
        simp [handleEmailShare, jsFalsy, hp, hf]
      · simp [handleEmailShare, jsFalsy, hp, ht2]

/-- Witness for C3 (amended) at a token-less document and at `pdfShared`. -/
theorem handleEmailShare_lazy_reuse_witness :
    handleEmailShare pdfEmptyToken "fresh1" "https://app" =
      ({ pdfEmptyToken with share_token := some "fresh1" },
       "https://app/shared/fresh1") ∧
    handleEmailShare pdfShared "fresh1" "https://app" =
      (pdfShared, "https://app/shared/tok1") ∧
    handleEmailShare (handleEmailShare pdfShared "fresh1" "https://app").1
        "fresh2" "https://app" =
      handleEmailShare pdfShared "fresh1" "https://app" := by
  refine ⟨?_, ?_, ?_⟩
  · decide
  · exact (handleEmailShare_lazy_reuse pdfShared "fresh1" "fresh2"
      "https://app" "tok1" (by decide)).2.1 rfl (by decide)
  · exact (handleEmailShare_lazy_reuse pdfShared "fresh1" "fresh2"
      "https://app" "tok1" (by decide)).2.2

/-! ## Shared-link resolver (SharedPDF.tsx `fetchSharedPDF`) -/

/-- The rows of the `pdfs` table whose stored share token equals the
presented one (`.eq('share_token', shareToken)`). -/
def matchingPdfs (tbl : List PdfMeta) (tok : String) : List PdfMeta :=
  tbl.filter (fun p => p.share_token == some tok)

/-- The resolver: `.eq('share_token', tok).single()` succeeds only when
exactly one row matches; any other outcome (no row, or more than one) is
surfaced as the single message "Shared PDF not found.". -/
def fetchSharedPDF (tbl : List PdfMeta) (tok : String) : Except String PdfMeta :=
  match matchingPdfs tbl tok with
  | [p] => Except.ok p
  | _ => Except.error "Shared PDF not found."

/-- C4: a successful resolution locates exactly one document whose stored
token equals the presented one; when no document matches, the resolver
reports the same fixed "not found" outcome that an empty table produces,
so a wrong token is indistinguishable from a nonexistent document. -/
theorem fetchSharedPDF_unique_or_not_found (tbl : List PdfMeta)
    (tok : String) (p : PdfMeta) :
    (fetchSharedPDF tbl tok = Except.ok p →
      matchingPdfs tbl tok = [p] ∧ p.share_token = some tok) ∧
    (matchingPdfs tbl tok = [] →
      fetchSharedPDF tbl tok = Except.error "Shared PDF not found.") ∧
    fetchSharedPDF [] tok = Except.error "Shared PDF not found." := by
  refine ⟨?_, ?_, rfl⟩
  · intro h
    unfold fetchSharedPDF at h
    rcases hm : matchingPdfs tbl tok with _ | ⟨q, _ | ⟨r, rest⟩⟩
    · rw [hm] at h
      exact absurd h (by simp)
    · rw [hm] at h
      have hq : q = p := by
        simpa using h
      subst hq
      have hqmem : q ∈ matchingPdfs tbl tok := by
        rw [hm]
        exact List.mem_singleton.mpr rfl
      have hfil := List.of_mem_filter hqmem
      exact ⟨rfl, by simpa using hfil⟩
    · rw [hm] at h
      exact absurd h (by simp)
  · intro h
    unfold fetchSharedPDF
    rw [h]

/-- Witness for C4 at a one-row table and the empty table. -/
theorem fetchSharedPDF_unique_or_not_found_witness :
    matchingPdfs [pdfShared] "tok1" = [pdfShared] ∧
    pdfShared.share_token = some "tok1" ∧
    fetchSharedPDF [pdfEmptyToken] "zz" = Except.error "Shared PDF not found." := by
  have h := fetchSharedPDF_unique_or_not_found [pdfShared] "tok1" pdfShared
  have h2 := fetchSharedPDF_unique_or_not_found [pdfEmptyToken] "zz" pdfShared
  have hok := h.1 rfl
  exact ⟨hok.1, hok.2, h2.2.1 rfl⟩

/-! ## Comment posting (PDFView.tsx / SharedPDF.tsx `addComment`) -/

/-- JavaScript `s.trim()`: remove leading and trailing whitespace. -/
def jsTrim (s : String) : String :=
  String.mk
    (((s.data.dropWhile Char.isWhitespace).reverse.dropWhile
        Char.isWhitespace).reverse)

/-- The owner-view comment submit: return early when the input is empty
after trimming (before any call leaves the client), otherwise insert a row
whose content is the trimmed input and whose author is the current user id
or null.  The Bool records whether an insert happened. -/
def addComment (comments : List CommentRow) (pdfId : String) (inp : String)
    (authUser : Option String) (newId : String) (now : Nat) :
    List CommentRow × Bool :=
  if jsTrim inp == "" then (comments, false)
  else (⟨newId, pdfId, authUser, jsTrim inp, now⟩ :: comments, true)

/-- The shared-view comment submit: additionally guards on the loaded pdf
(and its id) being truthy; otherwise identical to the owner view. -/
def addCommentShared (comments : List CommentRow) (pdf : Option PdfMeta)
    (inp : String) (authUser : Option String) (newId : String) (now : Nat) :
    List CommentRow × Bool :=
  match pdf with
  | none => (comments, false)
  | some p =>
    if p.id == "" then (comments, false)
    else if jsTrim inp == "" then (comments, false)
    else (⟨newId, p.id, authUser, jsTrim inp, now⟩ :: comments, true)

/-- C5: a non-PDF MIME type is rejected with the upload state untouched
(no storage object, no metadata row), and a comment that is empty after
trimming is rejected with the comment table untouched; both rejections
happen before anything is sent. -/
theorem validation_rejects_before_effects (st : AppState) (file : FileInput)
    (t : Nat) (au : Option String) (i : String) (dbFails : Bool)
    (comments : List CommentRow) (pdfId inp : String)
    (au2 : Option String) (cid : String) (now : Nat)
    (h1 : jsIncludes file.mimeType "pdf" = false)
    (h2 : jsTrim inp = "") :
    uploadFile st file t au i dbFails = (st, Except.error "Please upload a PDF file") ∧
    addComment comments pdfId inp au2 cid now = (comments, false) := by
  constructor
  · simp [uploadFile, h1]
  · simp [addComment, h2]

/-- Witness for C5: a PNG upload and a whitespace-only comment. -/
theorem validation_rejects_before_effects_witness :
    uploadFile ⟨["k1"], [pdfShared]⟩ ⟨"cat.png", "image/png"⟩ 7 (some "owner1")
        "p3" false =
      (⟨["k1"], [pdfShared]⟩, Except.error "Please upload a PDF file") ∧
    addComment [commentOnShared] "p1" "   " (some "owner1") "c2" 9 =
      ([commentOnShared], false) :=
  validation_rejects_before_effects ⟨["k1"], [pdfShared]⟩ ⟨"cat.png", "image/png"⟩
    7 (some "owner1") "p3" false [commentOnShared] "p1" "   " (some "owner1")
    "c2" 9 (by decide) (by decide)

/-- C10: a successfully posted comment stores exactly the submitted input
with leading and trailing whitespace removed, in both the owner view and
the shared view (the trim used for the emptiness check is also the stored
value). -/
theorem comment_stored_trimmed (comments : List CommentRow) (pdfId inp : String)
    (au : Option String) (cid : String) (now : Nat) (p : PdfMeta)
    (ht : jsTrim inp ≠ "")
    (hpid : p.id ≠ "") :
    addComment comments pdfId inp au cid now =
      (⟨cid, pdfId, au, jsTrim inp, now⟩ :: comments, true) ∧
    addCommentShared comments (some p) inp au cid now =
      (⟨cid, p.id, au, jsTrim inp, now⟩ :: comments, true) := by
  constructor
  · simp [addComment, ht]
  · simp [addCommentShared, ht, hpid]

/-- Witness for C10: posting "  hi there  " stores "hi there" in both views. -/
theorem comment_stored_trimmed_witness :
    addComment [] "p1" "  hi there  " none "c7" 11 =
      (⟨"c7", "p1", none, "hi there", 11⟩ :: [], true) ∧
    addCommentShared [] (some pdfShared) "  hi there  " none "c7" 11 =
      (⟨"c7", "p1", none, "hi there", 11⟩ :: [], true) := by
  have h := comment_stored_trimmed [] "p1" "  hi there  " none "c7" 11 pdfShared
    (by decide) (by decide)
  have hv : jsTrim "  hi there  " = "hi there" := by decide
  rw [hv] at h
  exact h

/-! ## Comment display (PDFView.tsx `fetchUsersByIds`, `loadComments`,
author rendering) -/

/-- JavaScript `profile.name || 'Guest'`: a null or empty profile name
falls back to "Guest". -/
def jsNameOrGuest : Option String → String
  | none => "Guest"
  | some s => if s == "" then "Guest" else s

/-- `fetchUsersByIds`: select the profiles whose id is among `userIds`
(the `.in('id', userIds)` query) and build the mapping
id ↦ (name || 'Guest') exactly as the forEach does. -/
def fetchUsersByIds : List Profile → List String → List (String × String)
  | [], _ => []
  | p :: rest, userIds =>
    if userIds.contains p.id = true then
      (p.id, jsNameOrGuest p.name) :: fetchUsersByIds rest userIds
    else fetchUsersByIds rest userIds

/-- Mapping lookup `userMapping[uid]`. -/
def lookupName (mapping : List (String × String)) (uid : String) :
    Option String :=
  (mapping.find? (fun e => e.1 == uid)).map (fun e => e.2)

/-- The merge in `loadComments`: a comment's `user` field is the mapping
entry for its author when both exist, else null; the mapping is fetched for
the author ids present in the loaded comments. -/
def mergeUserFor (profiles : List Profile) (data : List CommentRow)
    (c : CommentRow) : Option String :=
  match c.user_id with
  | none => none
  | some uid =>
    lookupName
      (fetchUsersByIds profiles (data.filterMap (fun x => x.user_id))) uid

/-- `loadComments` pairs each loaded comment with its resolved user. -/
def mergeComments (profiles : List Profile) (data : List CommentRow) :
    List (CommentRow × Option String) :=
  data.map (fun c => (c, mergeUserFor profiles data c))

/-- The rendered author label,
`comment.user && comment.user.name ? comment.user.name : "Guest"`. -/
def renderAuthor : Option String → String
  | none => "Guest"
  | some nm => if nm == "" then "Guest" else nm

theorem find?_cons_true {α : Type} (p : α → Bool) (a : α) (l : List α)
    (h : p a = true) : List.find? p (a :: l) = some a := by
  simp [List.find?_cons, h]

theorem find?_cons_false {α : Type} (p : α → Bool) (a : α) (l : List α)
    (h : p a = false) : List.find? p (a :: l) = List.find? p l := by
  simp [List.find?_cons, h]

theorem lookupName_fetchUsersByIds (profiles : List Profile)
    (userIds : List String) (uid : String)
    (h : uid ∈ userIds) :
    lookupName (fetchUsersByIds profiles userIds) uid =
      (profiles.find? (fun p => p.id == uid)).map
        (fun p => jsNameOrGuest p.name) := by
  induction profiles with
  | nil => rfl
  | cons p rest ih =>
    by_cases hpid : p.id = uid
    · have hc : userIds.contains p.id = true := by
        rw [hpid]
        exact List.elem_eq_true_of_mem h
      have hbeq : (p.id == uid) = true := beq_iff_eq.mpr hpid
      have hstep : fetchUsersByIds (p :: rest) userIds =
          (p.id, jsNameOrGuest p.name) :: fetchUsersByIds rest userIds := by
        simp only [fetchUsersByIds]
        rw [if_pos hc]
      rw [hstep,
        find?_cons_true (fun q => q.id == uid) p rest hbeq]
      unfold lookupName
      rw [find?_cons_true (fun e => e.1 == uid) (p.id, jsNameOrGuest p.name)
        (fetchUsersByIds rest userIds) hbeq]
      rfl
    · have hbeq : (p.id == uid) = false := beq_eq_false_iff_ne.mpr hpid
      rw [find?_cons_false (fun q => q.id == uid) p rest hbeq]
      by_cases hcc : userIds.contains p.id = true
      · have hstep : fetchUsersByIds (p :: rest) userIds =
            (p.id, jsNameOrGuest p.name) :: fetchUsersByIds rest userIds := by
          simp only [fetchUsersByIds]
          rw [if_pos hcc]
        have hlstep :
            lookupName ((p.id, jsNameOrGuest p.name) ::
              fetchUsersByIds rest userIds) uid =
            lookupName (fetchUsersByIds rest userIds) uid := by
          unfold lookupName
          rw [find?_cons_false (fun e => e.1 == uid)
            (p.id, jsNameOrGuest p.name) (fetchUsersByIds rest userIds) hbeq]
        rw [hstep, hlstep]
        exact ih
      · have hstep : fetchUsersByIds (p :: rest) userIds =
            fetchUsersByIds rest userIds := by
          simp only [fetchUsersByIds]
          rw [if_neg hcc]
        rw [hstep]
        exact ih

/-- C6: a comment whose author column is null renders the fixed label
"Guest"; a comment authored by `uid` renders the display name found in the
profiles table handed to the display code (the current table at render
time, not a value stored with the comment row, which has no name field). -/
theorem comment_author_display (profiles : List Profile)
    (data : List CommentRow) (c : CommentRow) (uid nm : String) (p : Profile)
    (hc : c ∈ data) :
    (c.user_id = none → renderAuthor (mergeUserFor profiles data c) = "Guest") ∧
    (c.user_id = some uid →
      profiles.find? (fun q => q.id == uid) = some p →
      p.name = some nm → nm ≠ "" →
      renderAuthor (mergeUserFor profiles data c) = nm) := by
  constructor
  · intro h
    simp [mergeUserFor, h, renderAuthor]
  · intro h hfind hname hnm
    have hmem : uid ∈ data.filterMap (fun x => x.user_id) :=
      List.mem_filterMap.mpr ⟨c, hc, h⟩
    have hmu : mergeUserFor profiles data c =
        lookupName
          (fetchUsersByIds profiles (data.filterMap (fun x => x.user_id)))
          uid := by
      unfold mergeUserFor
      rw [h]
    rw [hmu, lookupName_fetchUsersByIds profiles _ uid hmem, hfind]
    simp [jsNameOrGuest, hname, hnm, renderAuthor]

/-- Sample authored comment for the display witness. -/
def commentByU1 : CommentRow :=
  { id := "c3", pdf_id := "p1", user_id := some "u1",
    content := "hey", created_at := 6 }

/-- Witness for C6: a guest comment renders "Guest" and a comment by u1
renders u1's current profile name "Alice". -/
theorem comment_author_display_witness :
    renderAuthor (mergeUserFor [⟨"u1", some "Alice"⟩]
      [commentOnShared, commentByU1] commentOnShared) = "Guest" ∧
    renderAuthor (mergeUserFor [⟨"u1", some "Alice"⟩]
      [commentOnShared, commentByU1] commentByU1) = "Alice" := by
  constructor
  · exact (comment_author_display [⟨"u1", some "Alice"⟩]
      [commentOnShared, commentByU1] commentOnShared "u1" "Alice"
      ⟨"u1", some "Alice"⟩ (by simp)).1 rfl
  · exact (comment_author_display [⟨"u1", some "Alice"⟩]
      [commentOnShared, commentByU1] commentByU1 "u1" "Alice"
      ⟨"u1", some "Alice"⟩ (by simp [commentByU1])).2 rfl rfl rfl (by decide)

/-! ## Partial failure of the upload (PDFUploader.tsx dbError branch; the
compensating `storage.remove` is commented out in part_003) -/

/-- C8: when the storage upload succeeds and the metadata insert fails, the
operation reports the insert error but performs no compensating delete: the
stored key remains in the bucket while the metadata table is unchanged,
leaving the object orphaned. -/
theorem upload_dbfail_orphans_object (st : AppState) (file : FileInput)
    (t : Nat) (u i : String)
    (hm : jsIncludes file.mimeType "pdf" = true)
    (hcol : (toString t ++ "-" ++ sanitizeName file.name) ∉ st.storage) :
    (uploadFile st file t (some u) i true).2 =
      Except.error "Failed to create database record" ∧
    (toString t ++ "-" ++ sanitizeName file.name) ∈
      (uploadFile st file t (some u) i true).1.storage ∧
    (uploadFile st file t (some u) i true).1.pdfsTable = st.pdfsTable := by
  have h : uploadFile st file t (some u) i true =
      ({ storage := (toString t ++ "-" ++ sanitizeName file.name) :: st.storage,
         pdfsTable := st.pdfsTable },
       Except.error "Failed to create database record") := by
    simp [uploadFile, hm, hcol]
  rw [h]
  exact ⟨rfl, List.mem_cons_self _ _, rfl⟩

/-- Witness for C8: the object key survives a failed metadata insert. -/
theorem upload_dbfail_orphans_object_witness :
    (uploadFile ⟨[], []⟩ ⟨"a.pdf", "application/pdf"⟩ 1 (some "owner1") "p4"
        true).2 = Except.error "Failed to create database record" ∧
    "1-a.pdf" ∈
      (uploadFile ⟨[], []⟩ ⟨"a.pdf", "application/pdf"⟩ 1 (some "owner1") "p4"
        true).1.storage ∧
    (uploadFile ⟨[], []⟩ ⟨"a.pdf", "application/pdf"⟩ 1 (some "owner1") "p4"
        true).1.pdfsTable = [] := by
  have h := upload_dbfail_orphans_object ⟨[], []⟩ ⟨"a.pdf", "application/pdf"⟩
    1 "owner1" "p4" (by decide) (by decide)
  have hk : toString 1 ++ "-" ++ sanitizeName "a.pdf" = "1-a.pdf" := by decide
  rw [hk] at h
  exact h

/-! ## Dashboard delete (Dashboard.tsx `handleDelete`) -/

/-- Component and backing state touched by `handleDelete`: the displayed
list, the storage bucket keys, the metadata table and the toast messages
shown so far. -/
structure DashboardState where
  pdfsList : List PdfMeta
  storage : List String
  pdfsTable : List PdfMeta
  notices : List String
deriving Repr, DecidableEq

/-- `handleDelete`: look the id up in the loaded list and return silently
when absent; otherwise remove the stored object (a storage error aborts
with an error toast), then delete the metadata row (a database error aborts
with an error toast), then drop the row from the displayed list and toast
success. -/
def handleDelete (st : DashboardState) (pid : String)
    (storageFails dbFails : Bool) : DashboardState :=
  match st.pdfsList.find? (fun p => p.id == pid) with
  | none => st
  | some pdf =>
    if storageFails then
      { st with notices := "Failed to delete PDF" :: st.notices }
    else
      let st1 : DashboardState :=
        { st with storage := st.storage.filter (fun k => !(k == pdf.file_path)) }
      if dbFails then
        { st1 with notices := "Failed to delete PDF" :: st1.notices }
      else
        { st1 with
            pdfsTable := st1.pdfsTable.filter (fun q => !(q.id == pid)),
            pdfsList := st1.pdfsList.filter (fun q => !(q.id == pid)),
            notices := "PDF deleted successfully" :: st1.notices }

/-- C9: a delete request whose id is not in the currently loaded list is a
complete no-op: no storage removal, no database delete, no toast, and the
displayed list and all backing state are returned unchanged. -/
theorem handleDelete_missing_id_noop (st : DashboardState) (pid : String)
    (storageFails dbFails : Bool)
    (h : st.pdfsList.find? (fun p => p.id == pid) = none) :
    handleDelete st pid storageFails dbFails = st := by
  unfold handleDelete
  rw [h]

/-- Witness for C9: deleting an id absent from the loaded list. -/
theorem handleDelete_missing_id_noop_witness :
    handleDelete ⟨[pdfShared], ["1700000000000-report.pdf"], [pdfShared], []⟩
      "nope" false false =
      ⟨[pdfShared], ["1700000000000-report.pdf"], [pdfShared], []⟩ :=
  handleDelete_missing_id_noop
    ⟨[pdfShared], ["1700000000000-report.pdf"], [pdfShared], []⟩
    "nope" false false (by decide)

/-! ## Realtime comment merge (PDFView.tsx revisions: descending base query
with prepend, ascending base query with append) -/

/-- Realtime INSERT handler of the descending-ordered revision:
`setComments(prev => [enriched, ...prev])`. -/
def realtimeInsertDesc (prev : List CommentRow) (c : CommentRow) :
    List CommentRow :=
  c :: prev

/-- Realtime INSERT handler of the ascending-ordered revisions:
`setComments(prev => [...prev, payload.new])`. -/
def realtimeInsertAsc (prev : List CommentRow) (c : CommentRow) :
    List CommentRow :=
  prev ++ [c]

/-- Newest-first display order (the `ascending: false` base query). -/
def sortedDesc (l : List CommentRow) : Prop :=
  l.Pairwise (fun a b => b.created_at ≤ a.created_at)

/-- Oldest-first display order (the `ascending: true` base query). -/
def sortedAsc (l : List CommentRow) : Prop :=
  l.Pairwise (fun a b => a.created_at ≤ b.created_at)

theorem foldl_realtimeInsertDesc (es init : List CommentRow) :
    es.foldl realtimeInsertDesc init = es.reverse ++ init := by
  induction es generalizing init with
  | nil => rfl
  | cons e rest ih =>
    simp [List.foldl_cons, realtimeInsertDesc, ih]

theorem foldl_realtimeInsertAsc (es init : List CommentRow) :
    es.foldl realtimeInsertAsc init = init ++ es := by
  induction es generalizing init with
  | nil => simp
  | cons e rest ih =>
    simp [List.foldl_cons, realtimeInsertAsc, ih]

/-- C7: starting from an initial load sorted in the view's base order and
streaming any sequence of insert events delivered in commit (nondecreasing
creation-time) order after the initial rows, the in-memory list stays
sorted in that base order: the descending view prepends each event and the
ascending view appends it. -/
theorem realtime_merge_preserves_order
    (initD initA es : List CommentRow)
    (hD : sortedDesc initD) (hA : sortedAsc initA) (hes : sortedAsc es)
    (hgeD : ∀ e ∈ es, ∀ x ∈ initD, x.created_at ≤ e.created_at)
    (hgeA : ∀ e ∈ es, ∀ x ∈ initA, x.created_at ≤ e.created_at) :
    sortedDesc (es.foldl realtimeInsertDesc initD) ∧
    sortedAsc (es.foldl realtimeInsertAsc initA) := by
  constructor
  · rw [foldl_realtimeInsertDesc]
    unfold sortedDesc
    rw [List.pairwise_append]
    refine ⟨?_, hD, ?_⟩
    · rw [List.pairwise_reverse]
      exact hes
    · intro a ha b hb
      exact hgeD a (List.mem_reverse.mp ha) b hb
  · rw [foldl_realtimeInsertAsc]
    unfold sortedAsc
    rw [List.pairwise_append]
    exact ⟨hA, hes, fun a ha b hb => hgeA b hb a ha⟩

/-- Sample comments for the realtime-merge witness, with creation times
1, 2, 3 and 4. -/
def cAt : Nat → CommentRow :=
  fun n => { id := "e" ++ toString n, pdf_id := "p1", user_id := none,
             content := "m", created_at := n }

/-- Witness for C7: two streamed events merged into a two-element initial
load, in both base orders. -/
theorem realtime_merge_preserves_order_witness :
    sortedDesc ([cAt 3, cAt 4].foldl realtimeInsertDesc [cAt 2, cAt 1]) ∧
    sortedAsc ([cAt 3, cAt 4].foldl realtimeInsertAsc [cAt 1, cAt 2]) := by
  refine realtime_merge_preserves_order [cAt 2, cAt 1] [cAt 1, cAt 2]
    [cAt 3, cAt 4] ?_ ?_ ?_ ?_ ?_
  · unfold sortedDesc
    simp [cAt]
  · unfold sortedAsc
    simp [cAt]
  · unfold sortedAsc
    simp [cAt]
  · intro e he x hx
    simp only [cAt] at he hx ⊢
    rcases List.mem_pair.mp he with rfl | rfl <;>
      rcases List.mem_pair.mp hx with rfl | rfl <;> simp
  · intro e he x hx
    simp only [cAt] at he hx ⊢
    rcases List.mem_pair.mp he with rfl | rfl <;>
      rcases List.mem_pair.mp hx with rfl | rfl <;> simp
